import Mathlib

/-!
Verification development for the hotel brand-standards QA application
(single source file `main.py`).

The application is a linear Streamlit script.  We shallowly embed the parts
of it that carry logic:

* `clean_model_json` — the code-fence stripping utility `_clean_model_json`;
* a small JSON value type with an executable parser and serializer modelling
  the `json.loads` / `json.dumps` calls (numbers are modelled as integers and
  `\u` escapes are not modelled; none of the claims exercise those corners);
* `buildSystemInstruction` — the system-instruction construction inside
  `call_gemini_api`;
* `renderVerdictObj` / `displayVerdict` — the QA-result display branch;
* `runPdfStage` / `submit` — the Submit button handler, with the two
  outbound LLM calls (`extract_from_pdf`, `call_gemini_api`) modelled as
  oracle parameters whose invocations are counted, and the SHA-256 digest
  modelled as an abstract hash-function parameter.

Strings are modelled as `List Char`.
-/

abbrev Str := List Char

/-- Python whitespace characters stripped by `str.strip()` (ASCII fragment). -/
def isPyWS (c : Char) : Bool :=
  c = ' ' || c = '\t' || c = '\n' || c = '\x0d' || c = '\x0b' || c = '\x0c'

/-- Model of Python `str.strip()`: drop leading and trailing whitespace. -/
def pyStrip (s : Str) : Str :=
  ((s.dropWhile isPyWS).reverse.dropWhile isPyWS).reverse

/-- Index of the first occurrence of `sep` in `s`, if any. -/
def firstOcc? (sep : Str) : Str → Option Nat
  | [] => if sep.isEmpty then some 0 else none
  | s@(_ :: t) =>
    if sep.isPrefixOf s then some 0
    else (firstOcc? sep t).map (· + 1)

/-- Index of the last occurrence of `sep` in `s`, if any. -/
def lastOcc? (sep : Str) : Str → Option Nat
  | [] => if sep.isEmpty then some 0 else none
  | s@(_ :: t) =>
    match lastOcc? sep t with
    | some i => some (i + 1)
    | none => if sep.isPrefixOf s then some 0 else none

/-- Python's substring test `sep in s`. -/
def containsSub (s sep : Str) : Bool := (firstOcc? sep s).isSome

/-- `s.split(sep, 1)[1]`: everything after the first occurrence of `sep`
(meaningful when `sep` occurs in `s`; returns `s` otherwise). -/
def afterFirst (s sep : Str) : Str :=
  match firstOcc? sep s with
  | some i => s.drop (i + sep.length)
  | none => s

/-- `s.rsplit(sep, 1)[0]`: everything before the last occurrence of `sep`
(the whole string when `sep` does not occur). -/
def beforeLast (s sep : Str) : Str :=
  match lastOcc? sep s with
  | some i => s.take i
  | none => s

/-- The tagged opening fence `"```json"`. -/
def jsonTag : Str := "```json".toList

/-- The generic fence delimiter `"```"`. -/
def fence : Str := "```".toList

/-- Embedding of `_clean_model_json` (main.py lines 247-259): if the text
contains a `"```json"` tag, take what follows the first such tag up to the
last `"```"`, stripped; else if it contains `"```"`, take what follows the
first fence up to the last fence, stripped; else return the stripped text.
(The `try/except` wrappers in the source are dead: the guarded `split`
cannot fail once the separator is known to occur.) -/
def clean_model_json (text : Str) : Str :=
  if containsSub text jsonTag then
    pyStrip (beforeLast (afterFirst text jsonTag) fence)
  else if containsSub text fence then
    pyStrip (beforeLast (afterFirst text fence) fence)
  else pyStrip text

example : clean_model_json "```json\nhi\n```".toList = "hi".toList := by decide
example : clean_model_json "  plain  ".toList = "plain".toList := by decide
example : clean_model_json "a ``` b ``` c".toList = "b".toList := by decide

/-!  ## JSON values (model of the values produced by `json.loads`)  -/

/-- JSON values.  Numbers are modelled as integers: no claim exercises
fractional numbers. -/
inductive Json where
  | null : Json
  | bool (b : Bool) : Json
  | num (n : Int) : Json
  | str (s : Str) : Json
  | arr (xs : List Json) : Json
  | obj (kvs : List (Str × Json)) : Json

/-- Python truthiness (`if x:`) of a JSON value: `None`, `False`, `0`, and
empty strings/lists/dicts are falsy. -/
def Json.truthy : Json → Bool
  | .null => false
  | .bool b => b
  | .num n => n != 0
  | .str s => !s.isEmpty
  | .arr xs => !xs.isEmpty
  | .obj kvs => !kvs.isEmpty

/-- Insert a key into an object's binding list the way a Python `dict`
does during `json.loads`: an existing key keeps its position but gets the
new value; a fresh key is appended. -/
def objUpdate (k : Str) (v : Json) : List (Str × Json) → List (Str × Json)
  | [] => [(k, v)]
  | (k', v') :: t => if k' = k then (k, v) :: t else (k', v') :: objUpdate k v t

/-- `dict.get(key, default)` on an object's binding list. -/
def dictGetD (kvs : List (Str × Json)) (k : Str) (d : Json) : Json :=
  match kvs.find? (fun kv => kv.1 = k) with
  | some kv => kv.2
  | none => d

/-- `key in dict` lookup without a default. -/
def dictGet? (kvs : List (Str × Json)) (k : Str) : Option Json :=
  (kvs.find? (fun kv => kv.1 = k)).map (·.2)

/-!  ## JSON parser (model of `json.loads`)

A strict recursive-descent parser over `List Char` with explicit fuel.
Faithful to CPython's `json.loads` on the inputs exercised by this
development; known simplifications: numbers are integer-only (a fractional
or exponent part makes the parse fail instead of yielding a float) and
`\u` escapes are rejected. -/

/-- JSON insignificant whitespace (RFC 8259: space, tab, LF, CR). -/
def isJsonWS (c : Char) : Bool :=
  c = ' ' || c = '\t' || c = '\n' || c = '\x0d'

/-- Drop leading JSON whitespace. -/
def skipWS : Str → Str
  | [] => []
  | c :: t => if isJsonWS c then skipWS t else c :: t

/-- Decode a single-character escape sequence inside a JSON string. -/
def escChar : Char → Option Char
  | '"' => some '"'
  | '\\' => some '\\'
  | '/' => some '/'
  | 'b' => some '\x08'
  | 'f' => some '\x0c'
  | 'n' => some '\n'
  | 'r' => some '\x0d'
  | 't' => some '\t'
  | _ => none

/-- Parse the body of a JSON string (the opening quote already consumed);
returns the decoded string and the remaining input. -/
def parseJStr : Str → Option (Str × Str)
  | [] => none
  | '"' :: rest => some ([], rest)
  | '\\' :: rest =>
    match rest with
    | [] => none
    | e :: rest' =>
      match escChar e with
      | some c => (parseJStr rest').map (fun p => (c :: p.1, p.2))
      | none => none
  | c :: rest =>
    if c.toNat < 32 then none
    else (parseJStr rest).map (fun p => (c :: p.1, p.2))

/-- Parse a nonempty run of decimal digits into a natural number. -/
def parseDigits : Str → Nat → Option (Nat × Str)
  | [], acc => some (acc, [])
  | c :: t, acc =>
    if c.isDigit then parseDigits t (acc * 10 + (c.toNat - 48))
    else some (acc, c :: t)

mutual

/-- Parse one JSON value from the input (leading whitespace already
skipped); returns the value and the remaining input. -/
def parseValue : Nat → Str → Option (Json × Str)
  | 0, _ => none
  | _ + 1, [] => none
  | f + 1, c :: t =>
    if c = '"' then (parseJStr t).map (fun p => (.str p.1, p.2))
    else if c = 't' then
      if "rue".toList.isPrefixOf t then some (.bool true, t.drop 3) else none
    else if c = 'f' then
      if "alse".toList.isPrefixOf t then some (.bool false, t.drop 4) else none
    else if c = 'n' then
      if "ull".toList.isPrefixOf t then some (.null, t.drop 3) else none
    else if c = '\x7b' then parseObjBody f (skipWS t) []
    else if c = '[' then parseArrBody f (skipWS t) true []
    else if c = '-' then
      match t with
      | d :: t' =>
        if d.isDigit then
          (parseDigits t' (d.toNat - 48)).map (fun p => (.num (-(p.1 : Int)), p.2))
        else none
      | [] => none
    else if c.isDigit then
      (parseDigits t (c.toNat - 48)).map (fun p => (.num (p.1 : Int), p.2))
    else none

/-- Parse the members of a JSON object after `\x7b` (whitespace skipped);
`acc` holds the bindings read so far. -/
def parseObjBody : Nat → Str → List (Str × Json) → Option (Json × Str)
  | 0, _, _ => none
  | _ + 1, [], _ => none
  | f + 1, c :: t, acc =>
    if c = '\x7d' then
      if acc.isEmpty then some (.obj [], t) else none
    else if c = '"' then
      match parseJStr t with
      | none => none
      | some (k, rest) =>
        match skipWS rest with
        | ':' :: rest' =>
          match parseValue f (skipWS rest') with
          | none => none
          | some (v, rest2) =>
            let acc' := objUpdate k v acc
            match skipWS rest2 with
            | ',' :: rest3 => parseObjBody f (skipWS rest3) acc'
            | '\x7d' :: rest3 => some (.obj acc', rest3)
            | _ => none
        | _ => none
    else none

/-- Parse the elements of a JSON array after `[` (whitespace skipped);
`first` marks whether no element has been read yet. -/
def parseArrBody : Nat → Str → Bool → List Json → Option (Json × Str)
  | 0, _, _, _ => none
  | _ + 1, [], _, _ => none
  | f + 1, c :: t, first, acc =>
    if c = ']' ∧ first then some (.arr [], t)
    else
      match parseValue f (c :: t) with
      | none => none
      | some (v, rest) =>
        match skipWS rest with
        | ',' :: rest' => parseArrBody f (skipWS rest') false (acc ++ [v])
        | ']' :: rest' => some (.arr (acc ++ [v]), rest')
        | _ => none

end

/-- Model of `json.loads`: parse a complete JSON document, allowing
surrounding whitespace; `none` models `json.JSONDecodeError`. -/
def jsonParse (s : Str) : Option Json :=
  match parseValue (s.length + 1) (skipWS s) with
  | some (j, rest) => if (skipWS rest).isEmpty then some j else none
  | none => none

example : jsonParse "\x7b\"a\":1\x7d".toList = some (.obj [("a".toList, .num 1)]) := rfl
example : jsonParse "no fences here, not json".toList = none := rfl
example : jsonParse " [1, true, null, \"x\"] ".toList
    = some (.arr [.num 1, .bool true, .null, .str "x".toList]) := rfl
example : jsonParse "\x7b\x7d".toList = some (.obj []) := rfl
example : jsonParse "-12".toList = some (.num (-12)) := rfl
example : jsonParse "\x7b\"a\":1,\"a\":2\x7d".toList
    = some (.obj [("a".toList, .num 2)]) := rfl

/-!  ## JSON serializer (model of `json.dumps` with default options)  -/

/-- Escape one character for a JSON string the way `json.dumps` does
(ASCII fragment; `ensure_ascii` escaping of non-ASCII is not modelled). -/
def dumpChar (c : Char) : Str :=
  if c = '"' then "\\\"".toList
  else if c = '\\' then "\\\\".toList
  else if c = '\n' then "\\n".toList
  else if c = '\t' then "\\t".toList
  else if c = '\x0d' then "\\r".toList
  else if c = '\x08' then "\\b".toList
  else if c = '\x0c' then "\\f".toList
  else [c]

/-- Serialize a JSON string body. -/
def dumpStrBody : Str → Str
  | [] => []
  | c :: t => dumpChar c ++ dumpStrBody t

mutual

/-- Model of `json.dumps` with the default separators `", "` and `": "`. -/
def dumps : Json → Str
  | .null => "null".toList
  | .bool true => "true".toList
  | .bool false => "false".toList
  | .num n => (toString n).toList
  | .str s => '"' :: (dumpStrBody s ++ ['"'])
  | .arr xs => '[' :: (dumpsArr xs ++ [']'])
  | .obj kvs => '\x7b' :: (dumpsObj kvs ++ ['\x7d'])

/-- Serialize array elements, separated by `", "`. -/
def dumpsArr : List Json → Str
  | [] => []
  | [x] => dumps x
  | x :: y :: t => dumps x ++ ',' :: ' ' :: dumpsArr (y :: t)

/-- Serialize object members, `": "` between key and value, `", "` between
members. -/
def dumpsObj : List (Str × Json) → Str
  | [] => []
  | [kv] => '"' :: (dumpStrBody kv.1 ++ '"' :: ':' :: ' ' :: dumps kv.2)
  | kv :: kv' :: t =>
    '"' :: (dumpStrBody kv.1 ++ '"' :: ':' :: ' ' :: dumps kv.2)
      ++ ',' :: ' ' :: dumpsObj (kv' :: t)

end

example : dumps (.obj [("a".toList, .num 1), ("b".toList, .arr [.bool true, .null])])
    = "\x7b\"a\": 1, \"b\": [true, null]\x7d".toList := rfl
example : dumps (.obj []) = "\x7b\x7d".toList := rfl

/-!  ## Session values and the response normalizer  -/

/-- The value stored in `st.session_state["pdf_extracted"]` when it is not
`None`: either the result of a successful `json.loads` or, when parsing
failed, the raw response text (main.py lines 300-305). -/
inductive SpecVal where
  | parsed (j : Json) : SpecVal
  | raw (s : Str) : SpecVal

/-- Python truthiness of a stored extraction value. -/
def SpecVal.truthy : SpecVal → Bool
  | .parsed j => j.truthy
  | .raw s => !s.isEmpty

/-- Python truthiness of an optional stored extraction value
(`None` is falsy). -/
def truthyOpt : Option SpecVal → Bool
  | none => false
  | some v => v.truthy

/-- Outcome of the Response Normalizer: a parsed structured value, or the
original text flagged as unparsed. -/
inductive NormResult where
  | parsed (j : Json) : NormResult
  | unparsed (t : Str) : NormResult

/-- The normalization pattern used identically at both call sites of the
source (extraction response, lines 300-305, and verdict response, lines
340-342/369): defence the text with `_clean_model_json`, attempt a JSON
parse, and on failure keep the original text.  The parse function is a
parameter abstracting `json.loads`. -/
def normalizeWith (parse : Str → Option Json) (t : Str) : NormResult :=
  match parse (clean_model_json t) with
  | some j => .parsed j
  | none => .unparsed t

/-- The session value stored after normalizing an extraction response:
`json.loads` result on success, the raw text otherwise. -/
def specOfResponse (parse : Str → Option Json) (t : Str) : SpecVal :=
  match normalizeWith parse t with
  | .parsed j => .parsed j
  | .unparsed s => .raw s

/-!  ## Image Auditor system instruction (`call_gemini_api`, lines 139-164) -/

/-- The fixed QA rubric `base_system` of `call_gemini_api`
(main.py lines 145-159), transcribed verbatim. -/
def baseSystem : Str :=
  ("You are a Hotel QA Specialist. Evaluate the provided image for compliance with cleanliness, "
    ++ "consistency, and maintenance standards. Use the following key categories when classifying findings:\n\n"
    ++ "1. Condition – Issues related to wear, damage, or deterioration of materials or fixtures (e.g., peeling drawers, faded paint, broken parts).\n"
    ++ "2. Cleanliness – Issues involving dirt, stains, or maintenance of hygiene and visual appearance (e.g., dirty surfaces, stains, debris).\n"
    ++ "3. Compliance – Issues involving deviation from brand standards or design specifications (e.g., incorrect fixtures, missing required items).\n\n"
    ++ "Respond STRICTLY in JSON with the following top-level fields only:\n"
    ++ "\x7b\n"
    ++ "  \"Issue_Present\": true|false,                  // overall boolean\n"
    ++ "  \"Category\": \"Condition\"|\"Cleanliness\"|\"Compliance\",  // primary category for the issue\n"
    ++ "  \"Description\": \"Concise explanation of the finding\",\n"
    ++ "  \"Resolution\": \"Specific words to correct the issue\", // like replace, paint, remove, wash, clean etc.\n"
    ++ "  ]\n"
    ++ "\x7d\n\n"
    ++ "Do not include any extra text, commentary, or code blocks. If multiple issues exist, choose the primary Category that best represents the most important issue and list others in Findings.").toList

/-- The fixed header inserted before the serialized document context
(main.py line 162). -/
def ctxHeader : Str := "\n\nContext from brand standards (extracted):\n".toList

/-- Serialization of the document context as in line 161:
`json.dumps(pdf_extracted) if isinstance(pdf_extracted, (dict, list)) else
str(pdf_extracted)`.  `str()` of a raw text is the text itself;
`str()` of the remaining Python scalars is their Python rendering. -/
def serializeCtx : SpecVal → Str
  | .parsed (.obj kvs) => dumps (.obj kvs)
  | .parsed (.arr xs) => dumps (.arr xs)
  | .parsed .null => "None".toList
  | .parsed (.bool true) => "True".toList
  | .parsed (.bool false) => "False".toList
  | .parsed (.num n) => (toString n).toList
  | .parsed (.str s) => s
  | .raw s => s

/-- Embedding of the system-instruction construction in `call_gemini_api`
(main.py lines 160-164): the context is appended only when `pdf_extracted`
is truthy. -/
def buildSystemInstruction (pe : Option SpecVal) : Str :=
  if truthyOpt pe then
    match pe with
    | some v => baseSystem ++ ctxHeader ++ serializeCtx v
    | none => baseSystem
  else baseSystem

/-- Modelled from the spec's words (§4.3): "Builds a system instruction by
concatenating a fixed QA rubric with, if context is present, a serialized
textual rendering of the ExtractedSpec appended verbatim"; context is
present exactly when an ExtractedSpec is held. -/
def specSystemInstruction (pe : Option SpecVal) : Str :=
  match pe with
  | some v => baseSystem ++ ctxHeader ++ serializeCtx v
  | none => baseSystem

/-!  ## The defencing step, spec-side and characterization lemmas  -/

/-- Everything before the first occurrence of `sep` (the whole string when
`sep` does not occur). -/
def beforeFirst (s sep : Str) : Str :=
  match firstOcc? sep s with
  | some i => s.take i
  | none => s

/-- Modelled from the spec's words (§4.2 step 1, claim C3): "if the text
contains a fenced block explicitly tagged as JSON, extract only the content
between the first such fence pair; else if the text contains any fenced
block, extract content between the first generic fence pair; else use the
text verbatim", trimmed at each stage.  The first fence pair's content ends
at the first closing fence following the opening tag. -/
def specDefenceFirstPair (text : Str) : Str :=
  if containsSub text jsonTag then
    pyStrip (beforeFirst (afterFirst text jsonTag) fence)
  else if containsSub text fence then
    pyStrip (beforeFirst (afterFirst text fence) fence)
  else pyStrip text

/-- The backtick character, `'\x60'`. -/
def tick : Char := Char.ofNat 96

/-- `s` contains no backtick. -/
def tickFree (s : Str) : Bool := s.all (fun c => c != tick)

lemma tickFree_cons (c : Char) (t : Str) (h : tickFree (c :: t) = true) :
    c ≠ tick ∧ tickFree t = true := by
  rw [tickFree, List.all_cons] at h
  have h' := (Bool.and_eq_true _ _).mp h
  exact ⟨by simpa using h'.1, h'.2⟩

lemma head_tick_of (sep : Str) (h0 : sep.head? = some tick) :
    ∃ s', sep = tick :: s' := by
  cases sep with
  | nil => simp at h0
  | cons a s' =>
    have ha : a = tick := by simpa using h0
    exact ⟨s', by rw [ha]⟩

lemma firstOcc_boundary (sep pre rest : Str) (h0 : sep.head? = some tick)
    (hpre : tickFree pre = true) (hrest : sep.isPrefixOf rest = true) :
    firstOcc? sep (pre ++ rest) = some pre.length := by
  induction pre with
  | nil =>
    cases rest with
    | nil =>
      exfalso
      rw [List.isPrefixOf_iff_prefix] at hrest
      have : sep = [] := by simpa using hrest
      simp [this] at h0
    | cons c t => simp [firstOcc?, hrest]
  | cons c pre' ih =>
    obtain ⟨s', rfl⟩ := head_tick_of sep h0
    obtain ⟨hc, hpre'⟩ := tickFree_cons c pre' hpre
    have htc : (tick == c) = false := beq_eq_false_iff_ne.mpr (Ne.symm hc)
    have hnp : (tick :: s').isPrefixOf (c :: (pre' ++ rest)) = false := by
      simp [List.isPrefixOf, htc]
    simp [firstOcc?, hnp, ih hpre']

lemma isPrefixOf_append_tickFree (sep u post : Str)
    (hsep : sep.all (fun c => c == tick) = true)
    (hpost : tickFree post = true) :
    sep.isPrefixOf (u ++ post) = sep.isPrefixOf u := by
  induction sep generalizing u with
  | nil => simp [List.isPrefixOf]
  | cons a sep' ih =>
    rw [List.all_cons] at hsep
    have hsep' := (Bool.and_eq_true _ _).mp hsep
    have ha : a = tick := by simpa using hsep'.1
    cases u with
    | nil =>
      cases post with
      | nil => simp
      | cons p t =>
        obtain ⟨hp, -⟩ := tickFree_cons p t hpost
        have hap : (a == p) = false := by
          subst ha
          exact beq_eq_false_iff_ne.mpr (Ne.symm hp)
        simp [List.isPrefixOf, hap]
    | cons b u' => simp [List.isPrefixOf, ih u' hsep'.2]

lemma lastOcc_tickFree_none (sep post : Str) (h0 : sep.head? = some tick)
    (hpost : tickFree post = true) : lastOcc? sep post = none := by
  obtain ⟨s', rfl⟩ := head_tick_of sep h0
  induction post with
  | nil => simp [lastOcc?]
  | cons c t ih =>
    obtain ⟨hc, ht⟩ := tickFree_cons c t hpost
    have htc : (tick == c) = false := beq_eq_false_iff_ne.mpr (Ne.symm hc)
    have hnp : (tick :: s').isPrefixOf (c :: t) = false := by
      simp [List.isPrefixOf, htc]
    simp [lastOcc?, ih ht, hnp]

lemma lastOcc_append_tickFree (sep s post : Str)
    (hsep : sep.all (fun c => c == tick) = true) (hne : sep ≠ [])
    (hpost : tickFree post = true) :
    lastOcc? sep (s ++ post) = lastOcc? sep s := by
  have h0 : sep.head? = some tick := by
    cases sep with
    | nil => exact absurd rfl hne
    | cons a s' =>
      rw [List.all_cons] at hsep
      have := (Bool.and_eq_true _ _).mp hsep
      have ha : a = tick := by simpa using this.1
      simp [ha]
  induction s with
  | nil =>
    rw [List.nil_append, lastOcc_tickFree_none sep post h0 hpost]
    simp [lastOcc?, List.isEmpty_iff, hne]
  | cons c t ih =>
    show lastOcc? sep (c :: (t ++ post)) = lastOcc? sep (c :: t)
    simp only [lastOcc?]
    rw [ih]
    cases h : lastOcc? sep t with
    | some i => rfl
    | none =>
      have heq : sep.isPrefixOf (c :: (t ++ post)) = sep.isPrefixOf (c :: t) := by
        have := isPrefixOf_append_tickFree sep (c :: t) post hsep hpost
        simpa using this
      rw [heq]

lemma lastOcc_fence_self_append (mid : Str) :
    lastOcc? fence (mid ++ fence) = some mid.length := by
  induction mid with
  | nil => decide
  | cons c t ih =>
    show lastOcc? fence (c :: (t ++ fence)) = some (t.length + 1)
    simp only [lastOcc?]
    rw [ih]

lemma isPrefixOf_of_append_left (a b u : Str) (h : (a ++ b).isPrefixOf u = true) :
    a.isPrefixOf u = true := by
  rw [List.isPrefixOf_iff_prefix] at *
  exact (List.prefix_append a b).trans h

lemma afterFirst_eq (s sep : Str) (i : Nat) (h : firstOcc? sep s = some i) :
    afterFirst s sep = s.drop (i + sep.length) := by
  simp only [afterFirst, h]

lemma beforeLast_eq (s sep : Str) (i : Nat) (h : lastOcc? sep s = some i) :
    beforeLast s sep = s.take i := by
  simp only [beforeLast, h]

lemma containsSub_fence_of_jsonTag (t : Str) (h : containsSub t jsonTag = true) :
    containsSub t fence = true := by
  induction t with
  | nil => exact absurd h (by decide)
  | cons c t' ih =>
    rw [containsSub, firstOcc?] at h
    rw [containsSub, firstOcc?]
    cases hp : jsonTag.isPrefixOf (c :: t') with
    | true =>
      have hf : fence.isPrefixOf (c :: t') = true := by
        have hjt : jsonTag = fence ++ "json".toList := by decide
        rw [hjt] at hp
        exact isPrefixOf_of_append_left _ _ _ hp
      simp [hf]
    | false =>
      rw [hp] at h
      simp only [Bool.false_eq_true, if_false] at h
      have ht' : containsSub t' jsonTag = true := by
        rw [containsSub]
        cases hfo : firstOcc? jsonTag t' with
        | some i => rfl
        | none => rw [hfo] at h; simp at h
      have hres := ih ht'
      rw [containsSub] at hres
      cases hf : fence.isPrefixOf (c :: t') with
      | true => simp [hf]
      | false => simp [hf, hres]

/-- Characterization of the `"```json"` branch of `_clean_model_json`: on a
text made of a backtick-free prelude, the first `"```json"` tag, an
arbitrary middle, the last `"```"` fence, and a backtick-free tail, the
function returns the stripped middle — everything between the first opening
tag and the last fence marker. -/
lemma clean_json_tag_branch (pre mid post : Str)
    (hpre : tickFree pre = true) (hpost : tickFree post = true) :
    clean_model_json (pre ++ (jsonTag ++ (mid ++ (fence ++ post)))) = pyStrip mid := by
  have hhead : jsonTag.head? = some tick := by decide
  have hpref : jsonTag.isPrefixOf (jsonTag ++ (mid ++ (fence ++ post))) = true := by
    rw [List.isPrefixOf_iff_prefix]
    exact List.prefix_append _ _
  have hfirst : firstOcc? jsonTag (pre ++ (jsonTag ++ (mid ++ (fence ++ post))))
      = some pre.length := firstOcc_boundary _ _ _ hhead hpre hpref
  have hcont : containsSub (pre ++ (jsonTag ++ (mid ++ (fence ++ post)))) jsonTag = true := by
    rw [containsSub, hfirst]
    rfl
  have hafter : afterFirst (pre ++ (jsonTag ++ (mid ++ (fence ++ post)))) jsonTag
      = mid ++ (fence ++ post) := by
    rw [afterFirst_eq _ _ _ hfirst]
    rw [show pre ++ (jsonTag ++ (mid ++ (fence ++ post)))
        = (pre ++ jsonTag) ++ (mid ++ (fence ++ post)) from (List.append_assoc _ _ _).symm]
    rw [show pre.length + jsonTag.length = (pre ++ jsonTag).length
        from (List.length_append _ _).symm]
    exact List.drop_left _ _
  have hlast : lastOcc? fence (mid ++ (fence ++ post)) = some mid.length := by
    rw [show mid ++ (fence ++ post) = (mid ++ fence) ++ post
        from (List.append_assoc _ _ _).symm]
    rw [lastOcc_append_tickFree fence (mid ++ fence) post (by decide) (by decide) hpost]
    exact lastOcc_fence_self_append mid
  have hbefore : beforeLast (mid ++ (fence ++ post)) fence = mid := by
    rw [beforeLast_eq _ _ _ hlast]
    exact List.take_left _ _
  simp only [clean_model_json]
  rw [if_pos hcont, hafter, hbefore]

/-- Characterization of the generic-fence branch of `_clean_model_json`:
when the text contains no `"```json"` tag, on a backtick-free prelude, the
first fence, an arbitrary middle, the last fence, and a backtick-free tail,
the function returns the stripped middle. -/
lemma clean_generic_branch (pre mid post : Str)
    (hnj : containsSub (pre ++ (fence ++ (mid ++ (fence ++ post)))) jsonTag = false)
    (hpre : tickFree pre = true) (hpost : tickFree post = true) :
    clean_model_json (pre ++ (fence ++ (mid ++ (fence ++ post)))) = pyStrip mid := by
  have hhead : fence.head? = some tick := by decide
  have hpref : fence.isPrefixOf (fence ++ (mid ++ (fence ++ post))) = true := by
    rw [List.isPrefixOf_iff_prefix]
    exact List.prefix_append _ _
  have hfirst : firstOcc? fence (pre ++ (fence ++ (mid ++ (fence ++ post))))
      = some pre.length := firstOcc_boundary _ _ _ hhead hpre hpref
  have hcont : containsSub (pre ++ (fence ++ (mid ++ (fence ++ post)))) fence = true := by
    rw [containsSub, hfirst]
    rfl
  have hafter : afterFirst (pre ++ (fence ++ (mid ++ (fence ++ post)))) fence
      = mid ++ (fence ++ post) := by
    rw [afterFirst_eq _ _ _ hfirst]
    rw [show pre ++ (fence ++ (mid ++ (fence ++ post)))
        = (pre ++ fence) ++ (mid ++ (fence ++ post)) from (List.append_assoc _ _ _).symm]
    rw [show pre.length + fence.length = (pre ++ fence).length
        from (List.length_append _ _).symm]
    exact List.drop_left _ _
  have hlast : lastOcc? fence (mid ++ (fence ++ post)) = some mid.length := by
    rw [show mid ++ (fence ++ post) = (mid ++ fence) ++ post
        from (List.append_assoc _ _ _).symm]
    rw [lastOcc_append_tickFree fence (mid ++ fence) post (by decide) (by decide) hpost]
    exact lastOcc_fence_self_append mid
  have hbefore : beforeLast (mid ++ (fence ++ post)) fence = mid := by
    rw [beforeLast_eq _ _ _ hlast]
    exact List.take_left _ _
  simp only [clean_model_json]
  rw [if_neg (by simp [hnj]), if_pos hcont, hafter, hbefore]

/-- Characterization of the no-fence branch of `_clean_model_json`. -/
lemma clean_no_fence (t : Str) (h : containsSub t fence = false) :
    clean_model_json t = pyStrip t := by
  have hj : containsSub t jsonTag = false := by
    cases hc : containsSub t jsonTag with
    | true => exact absurd (containsSub_fence_of_jsonTag t hc) (by rw [h]; simp)
    | false => rfl
  simp [clean_model_json, hj, h]

/-- The key strings of the verdict schema and the default values used by
the display branch (lines 343-346; the typo in the resolution default is
the source's). -/
def issueKey : Str := "Issue_Present".toList

/-- Key for the verdict's category field. -/
def categoryKey : Str := "Category".toList

/-- Key for the verdict's description field. -/
def descriptionKey : Str := "Description".toList

/-- Key for the verdict's resolution field. -/
def resolutionKey : Str := "Resolution".toList

/-- `result_json.get("Issue_Present", False)` (line 343). -/
def verdictIssue (kvs : List (Str × Json)) : Json :=
  dictGetD kvs issueKey (.bool false)

/-- `result_json.get("Category", "Unknown")` (line 344). -/
def verdictCategory (kvs : List (Str × Json)) : Json :=
  dictGetD kvs categoryKey (.str "Unknown".toList)

/-- `result_json.get("Description", "No description provided.")` (line 345). -/
def verdictDescription (kvs : List (Str × Json)) : Json :=
  dictGetD kvs descriptionKey (.str "No description provided.".toList)

/-- `result_json.get("Resolution", "No Soultion provided.")` (line 346). -/
def verdictResolution (kvs : List (Str × Json)) : Json :=
  dictGetD kvs resolutionKey (.str "No Soultion provided.".toList)

/-- Python's `x == False` on a JSON value: only `False` and `0` compare
equal to `False` (floats are outside the model). -/
def pyEqFalse : Json → Bool
  | .bool false => true
  | .num n => n == 0
  | _ => false

/-- What the display step renders. -/
inductive Display where
  /-- Nothing was rendered (validation failure, failed audit call, or
  `st.stop()`). -/
  | noDisplay : Display
  /-- The green `success-card` (lines 348-357): the "no issue" treatment. -/
  | successCard (category description resolution : Json) : Display
  /-- The red `error-card` (lines 359-368): the "issue present" treatment. -/
  | errorCard (category description resolution : Json) : Display
  /-- The `warning-card` (lines 370-379): raw text shown because the
  verdict could not be parsed as JSON. -/
  | warningCard (raw : Str) : Display
  /-- `json.loads` succeeded with a non-dict, so `result_json.get` raises
  an `AttributeError` that the `except json.JSONDecodeError` clause does
  not catch. -/
  | attrError : Display

/-- Rendering of a verdict that parsed to a JSON mapping (lines 343-368):
the card is chosen by `result_json.get("Issue_Present", False) == False`. -/
def renderVerdictObj (kvs : List (Str × Json)) : Display :=
  if pyEqFalse (verdictIssue kvs) then
    .successCard (verdictCategory kvs) (verdictDescription kvs) (verdictResolution kvs)
  else
    .errorCard (verdictCategory kvs) (verdictDescription kvs) (verdictResolution kvs)

/-- The QA-result display step (lines 338-379) applied to the audit
response text. -/
def displayVerdict (parse : Str → Option Json) (result_text : Str) : Display :=
  match normalizeWith parse result_text with
  | .parsed (.obj kvs) => renderVerdictObj kvs
  | .parsed _ => .attrError
  | .unparsed t => .warningCard t

/-!  ## The Submit handler (main.py lines 265-379)

The two outbound LLM calls and the SHA-256 digest are external effects;
they enter the model as parameters: `hashFn` for
`hashlib.sha256(...).hexdigest()`, `extractSvc` for `extract_from_pdf`
(applied to the PDF bytes it is given, `none` when reading the PDF buffer
failed), and `auditSvc` for `call_gemini_api`.  Invocations of the two
services are counted in the result. -/

/-- Outcome of a fallible external operation (`.err` models a raised
exception, carrying its message). -/
inductive Outcome where
  | ok (s : Str) : Outcome
  | err (e : Str) : Outcome

/-- The per-session state touched by the Submit handler. -/
structure SessionState where
  /-- `st.session_state["pdf_extracted"]` (`None` modelled as `none`). -/
  pdf_extracted : Option SpecVal
  /-- `st.session_state["pdf_extract_raw"]`. -/
  pdf_extract_raw : Option Str
  /-- `st.session_state["pdf_hash"]`. -/
  pdf_hash : Option Str
  /-- `st.session_state["show_pdf_extracted"]`. -/
  show_pdf_extracted : Bool

/-- An uploaded image: the outcome of `image_file.read()` and the value of
`getattr(image_file, "type", None)`. -/
structure ImageFile where
  readResult : Outcome
  mimeType : Option Str

/-- An uploaded PDF: the outcome of `pdf_file.getbuffer().tobytes()`. -/
structure PdfFile where
  readResult : Outcome

/-- Everything observable about one Submit action. -/
structure SubmitResult where
  /-- The session state after the action. -/
  state : SessionState
  /-- How many times `extract_from_pdf` was invoked (0 or 1). -/
  extractionCalls : Nat
  /-- How many times `call_gemini_api` was invoked (0 or 1). -/
  auditCalls : Nat
  /-- `some ctx` iff the audit call was invoked, with `ctx` the
  `pdf_ctx` document context passed to it. -/
  auditContext : Option (Option SpecVal)
  /-- What was rendered in the QA-result area. -/
  display : Display
  /-- The image-missing validation failure (line 268) fired. -/
  validationError : Bool

/-- Python truthiness of the optional digest string `new_hash`. -/
def truthyHash : Option Str → Bool
  | none => false
  | some h => !h.isEmpty

/-- The PDF stage of the Submit handler (lines 282-325): hash the document
if it can be read, then either re-extract — on the guard
`(not pdf_extracted) or (new_hash and pdf_hash != new_hash)` — or reuse the
cached value.  Returns the updated state, the `pdf_ctx` passed on to the
audit call, and the number of extraction calls made. -/
def runPdfStage (parse : Str → Option Json) (hashFn : Str → Str)
    (extractSvc : Option Str → Outcome)
    (pdf_file : Option PdfFile) (s : SessionState) :
    SessionState × Option SpecVal × Nat :=
  match pdf_file with
  | none => (s, s.pdf_extracted, 0)
  | some pf =>
    let pb : Option Str × Option Str :=
      match pf.readResult with
      | .ok b => (some b, some (hashFn b))
      | .err _ => (none, none)
    let pdf_bytes := pb.1
    let new_hash := pb.2
    if !truthyOpt s.pdf_extracted || (truthyHash new_hash && s.pdf_hash != new_hash) then
      match extractSvc pdf_bytes with
      | .ok extracted_text =>
        let newSpec := specOfResponse parse extracted_text
        ({ pdf_extracted := some newSpec, pdf_extract_raw := some extracted_text,
           pdf_hash := new_hash, show_pdf_extracted := true },
         some newSpec, 1)
      | .err _ =>
        ({ s with pdf_extracted := none, pdf_extract_raw := none }, none, 1)
    else (s, s.pdf_extracted, 0)

/-- What the QA-result area shows as a function of the audit call's
outcome (lines 328-379): nothing on a failed call (`result_text = None`,
`st.stop()`), nothing on an empty response (`if not result_text:
st.stop()`, line 335), otherwise the normalized verdict. -/
def auditDisplay (parse : Str → Option Json) (auditSvc : Outcome) : Display :=
  match auditSvc with
  | .err _ => .noDisplay
  | .ok result_text =>
    if result_text.isEmpty then .noDisplay
    else displayVerdict parse result_text

/-- The Submit handler (lines 265-379): validate the image, run the PDF
stage, always invoke the audit call, and display the normalized verdict. -/
def submit (parse : Str → Option Json) (hashFn : Str → Str)
    (extractSvc : Option Str → Outcome) (auditSvc : Outcome)
    (image_file : Option ImageFile) (pdf_file : Option PdfFile)
    (s : SessionState) : SubmitResult :=
  match image_file with
  | none =>
    { state := s, extractionCalls := 0, auditCalls := 0, auditContext := none,
      display := .noDisplay, validationError := true }
  | some img =>
    match img.readResult with
    | .err _ =>
      { state := s, extractionCalls := 0, auditCalls := 0, auditContext := none,
        display := .noDisplay, validationError := false }
    | .ok _image_bytes =>
      let st1 := runPdfStage parse hashFn extractSvc pdf_file s
      { state := st1.1, extractionCalls := st1.2.2, auditCalls := 1,
        auditContext := some st1.2.1,
        display := auditDisplay parse auditSvc,
        validationError := false }

/-!  ## Helper lemmas about the model  -/

lemma dictGetD_of_get? (kvs : List (Str × Json)) (k : Str) (d v : Json)
    (h : dictGet? kvs k = some v) : dictGetD kvs k d = v := by
  rw [dictGet?] at h
  rw [dictGetD]
  cases hf : kvs.find? (fun kv => kv.1 = k) with
  | none => rw [hf] at h; simp at h
  | some kv =>
    rw [hf] at h
    simp only [Option.map_some'] at h
    simpa using h

lemma dictGetD_of_none (kvs : List (Str × Json)) (k : Str) (d : Json)
    (h : dictGet? kvs k = none) : dictGetD kvs k d = d := by
  rw [dictGet?] at h
  rw [dictGetD]
  cases hf : kvs.find? (fun kv => kv.1 = k) with
  | none => simp
  | some kv => rw [hf] at h; simp at h

lemma runPdfStage_no_pdf (parse : Str → Option Json) (hashFn : Str → Str)
    (extractSvc : Option Str → Outcome) (s : SessionState) :
    runPdfStage parse hashFn extractSvc none s = (s, s.pdf_extracted, 0) := rfl

lemma runPdfStage_extract_ok (parse : Str → Option Json) (hashFn : Str → Str)
    (extractSvc : Option Str → Outcome) (pf : PdfFile) (s : SessionState)
    (b T : Str) (hb : pf.readResult = .ok b)
    (hguard : (!truthyOpt s.pdf_extracted
      || (truthyHash (some (hashFn b)) && (s.pdf_hash != some (hashFn b)))) = true)
    (hex : extractSvc (some b) = .ok T) :
    runPdfStage parse hashFn extractSvc (some pf) s
      = ({ pdf_extracted := some (specOfResponse parse T), pdf_extract_raw := some T,
           pdf_hash := some (hashFn b), show_pdf_extracted := true },
         some (specOfResponse parse T), 1) := by
  simp [runPdfStage, hb, hguard, hex]

lemma runPdfStage_extract_err (parse : Str → Option Json) (hashFn : Str → Str)
    (extractSvc : Option Str → Outcome) (pf : PdfFile) (s : SessionState)
    (b e : Str) (hb : pf.readResult = .ok b)
    (hguard : (!truthyOpt s.pdf_extracted
      || (truthyHash (some (hashFn b)) && (s.pdf_hash != some (hashFn b)))) = true)
    (hex : extractSvc (some b) = .err e) :
    runPdfStage parse hashFn extractSvc (some pf) s
      = ({ s with pdf_extracted := none, pdf_extract_raw := none }, none, 1) := by
  simp [runPdfStage, hb, hguard, hex]

lemma runPdfStage_cached (parse : Str → Option Json) (hashFn : Str → Str)
    (extractSvc : Option Str → Outcome) (pf : PdfFile) (s : SessionState)
    (b : Str) (hb : pf.readResult = .ok b)
    (hguard : (!truthyOpt s.pdf_extracted
      || (truthyHash (some (hashFn b)) && (s.pdf_hash != some (hashFn b)))) = false) :
    runPdfStage parse hashFn extractSvc (some pf) s = (s, s.pdf_extracted, 0) := by
  simp [runPdfStage, hb, hguard]

lemma submit_ok_image (parse : Str → Option Json) (hashFn : Str → Str)
    (extractSvc : Option Str → Outcome) (auditSvc : Outcome)
    (img : ImageFile) (pdf_file : Option PdfFile) (s : SessionState)
    (ib : Str) (himg : img.readResult = .ok ib) :
    submit parse hashFn extractSvc auditSvc (some img) pdf_file s
      = { state := (runPdfStage parse hashFn extractSvc pdf_file s).1,
          extractionCalls := (runPdfStage parse hashFn extractSvc pdf_file s).2.2,
          auditCalls := 1,
          auditContext := some (runPdfStage parse hashFn extractSvc pdf_file s).2.1,
          display := auditDisplay parse auditSvc,
          validationError := false } := by
  simp [submit, himg]

/-!  ## Claims  -/

/-- Claim C3, amended: the defencing step extracts the content between the
first opening fence (the first `"```json"` tag when one occurs, else the
first generic `"```"` fence) and the LAST `"```"` marker in the text,
trimmed — not the content of the first fence pair; a text with no fence is
returned verbatim, trimmed; and the concrete example response yields the
structured mapping with key `a` bound to `1`. -/
theorem c3_defencing_first_tag_to_last_fence :
    (∀ pre mid post : Str, tickFree pre = true → tickFree post = true →
      clean_model_json (pre ++ (jsonTag ++ (mid ++ (fence ++ post)))) = pyStrip mid)
    ∧ (∀ pre mid post : Str,
        containsSub (pre ++ (fence ++ (mid ++ (fence ++ post)))) jsonTag = false →
        tickFree pre = true → tickFree post = true →
        clean_model_json (pre ++ (fence ++ (mid ++ (fence ++ post)))) = pyStrip mid)
    ∧ (∀ t : Str, containsSub t fence = false → clean_model_json t = pyStrip t)
    ∧ normalizeWith jsonParse "```json\n\x7b\"a\":1\x7d\n```".toList
        = .parsed (.obj [("a".toList, .num 1)]) :=
  ⟨clean_json_tag_branch, clean_generic_branch, clean_no_fence, rfl⟩

/-- Claim C3 witness: the tagged branch at a concrete input. -/
theorem c3_witness :
    clean_model_json
        ("say: ".toList ++ (jsonTag ++ (" 1 ".toList ++ (fence ++ " end".toList))))
      = pyStrip " 1 ".toList :=
  c3_defencing_first_tag_to_last_fence.1 "say: ".toList " 1 ".toList " end".toList
    (by decide) (by decide)

/-- Claim C3 counterexample: with two fenced blocks the code does not
extract the content of the first fence pair (which would be `"1"`); it
returns everything up to the last fence. -/
theorem c3_counterexample :
    clean_model_json "```json\n1\n```\nx\n```\n2\n```".toList
      ≠ specDefenceFirstPair "```json\n1\n```\nx\n```\n2\n```".toList := by decide

/-- Claim C7: submitting with no image attached reports the validation
failure, issues zero extraction and zero audit calls, and leaves the
session state unchanged. -/
theorem c7_no_image_validation_failure (parse : Str → Option Json)
    (hashFn : Str → Str) (extractSvc : Option Str → Outcome) (auditSvc : Outcome)
    (pdf_file : Option PdfFile) (s : SessionState) :
    (submit parse hashFn extractSvc auditSvc none pdf_file s).validationError = true
    ∧ (submit parse hashFn extractSvc auditSvc none pdf_file s).extractionCalls = 0
    ∧ (submit parse hashFn extractSvc auditSvc none pdf_file s).auditCalls = 0
    ∧ (submit parse hashFn extractSvc auditSvc none pdf_file s).state = s :=
  ⟨rfl, rfl, rfl, rfl⟩

/-- Claim C6: for a verdict that parsed to a mapping whose
`Issue_Present` value is the boolean `false`, the display selects the
"no issue" success card; for `true`, the "issue present" error card — in
both cases rendering category, description and resolution; a verdict whose
defenced text does not parse is rendered with the distinct
"could not interpret" warning card. -/
theorem c6_issue_present_selects_treatment :
    (∀ kvs : List (Str × Json), dictGet? kvs issueKey = some (.bool false) →
      renderVerdictObj kvs = .successCard (verdictCategory kvs)
        (verdictDescription kvs) (verdictResolution kvs))
    ∧ (∀ kvs : List (Str × Json), dictGet? kvs issueKey = some (.bool true) →
      renderVerdictObj kvs = .errorCard (verdictCategory kvs)
        (verdictDescription kvs) (verdictResolution kvs))
    ∧ (∀ (parse : Str → Option Json) (t : Str), parse (clean_model_json t) = none →
      displayVerdict parse t = .warningCard t) := by
  refine ⟨?_, ?_, ?_⟩
  · intro kvs h
    have hv : verdictIssue kvs = .bool false := dictGetD_of_get? _ _ _ _ h
    simp [renderVerdictObj, hv, pyEqFalse]
  · intro kvs h
    have hv : verdictIssue kvs = .bool true := dictGetD_of_get? _ _ _ _ h
    simp [renderVerdictObj, hv, pyEqFalse]
  · intro parse t h
    simp [displayVerdict, normalizeWith, h]

/-- The spec's example verdict mapping, as parsed from
`{"Issue_Present": false, "Category": "Cleanliness", "Description": "x",
"Resolution": "y"}`. -/
def c6ExampleKvs : List (Str × Json) :=
  [(issueKey, .bool false), (categoryKey, .str "Cleanliness".toList),
   (descriptionKey, .str "x".toList), (resolutionKey, .str "y".toList)]

/-- Claim C6 witness: the spec's example selects the success card. -/
theorem c6_witness :
    renderVerdictObj c6ExampleKvs = .successCard (verdictCategory c6ExampleKvs)
      (verdictDescription c6ExampleKvs) (verdictResolution c6ExampleKvs) :=
  c6_issue_present_selects_treatment.1 c6ExampleKvs rfl

/-- Claim C10: the presentation of a mapping verdict is total for every
key set — a missing `Issue_Present` defaults to `False` and selects the
success ("no issue") card, and missing `Category` / `Description` /
`Resolution` keys render the fixed default strings; every mapping verdict
yields one of the two cards. -/
theorem c10_verdict_field_defaults :
    (∀ kvs : List (Str × Json), dictGet? kvs issueKey = none →
      renderVerdictObj kvs = .successCard (verdictCategory kvs)
        (verdictDescription kvs) (verdictResolution kvs))
    ∧ (∀ kvs : List (Str × Json), dictGet? kvs categoryKey = none →
      verdictCategory kvs = .str "Unknown".toList)
    ∧ (∀ kvs : List (Str × Json), dictGet? kvs descriptionKey = none →
      verdictDescription kvs = .str "No description provided.".toList)
    ∧ (∀ kvs : List (Str × Json), dictGet? kvs resolutionKey = none →
      verdictResolution kvs = .str "No Soultion provided.".toList)
    ∧ (∀ kvs : List (Str × Json),
      renderVerdictObj kvs = .successCard (verdictCategory kvs)
        (verdictDescription kvs) (verdictResolution kvs)
      ∨ renderVerdictObj kvs = .errorCard (verdictCategory kvs)
        (verdictDescription kvs) (verdictResolution kvs)) := by
  refine ⟨?_, ?_, ?_, ?_, ?_⟩
  · intro kvs h
    have hv : verdictIssue kvs = .bool false := dictGetD_of_none _ _ _ h
    simp [renderVerdictObj, hv, pyEqFalse]
  · intro kvs h
    exact dictGetD_of_none _ _ _ h
  · intro kvs h
    exact dictGetD_of_none _ _ _ h
  · intro kvs h
    exact dictGetD_of_none _ _ _ h
  · intro kvs
    cases hp : pyEqFalse (verdictIssue kvs) with
    | true => left; simp [renderVerdictObj, hp]
    | false => right; simp [renderVerdictObj, hp]

/-- Claim C10 witness: the empty mapping renders as the success card with
all three default fields. -/
theorem c10_witness :
    renderVerdictObj [] = .successCard (verdictCategory []) (verdictDescription [])
      (verdictResolution []) :=
  c10_verdict_field_defaults.1 [] rfl

/-- Claim C5: a response whose defenced form does not parse as JSON is
kept as the original text flagged unparsed — at the normalizer, at the
extraction call site (stored raw), and at the verdict display (the warning
card shows the raw text); within a submit the parse failure is soft: the
audit call happened and the action renders rather than aborting; the
concrete example text comes back unchanged under the unparsed flag. -/
theorem c5_parse_failure_is_soft :
    (∀ (parse : Str → Option Json) (t : Str), parse (clean_model_json t) = none →
      normalizeWith parse t = .unparsed t)
    ∧ (∀ (parse : Str → Option Json) (t : Str), parse (clean_model_json t) = none →
      specOfResponse parse t = .raw t)
    ∧ (∀ (parse : Str → Option Json) (t : Str), parse (clean_model_json t) = none →
      displayVerdict parse t = .warningCard t)
    ∧ (∀ (parse : Str → Option Json) (hashFn : Str → Str)
        (extractSvc : Option Str → Outcome) (img : ImageFile)
        (pdf_file : Option PdfFile) (s : SessionState) (ib T : Str),
      img.readResult = .ok ib → T ≠ [] → parse (clean_model_json T) = none →
      (submit parse hashFn extractSvc (.ok T) (some img) pdf_file s).display
          = .warningCard T
      ∧ (submit parse hashFn extractSvc (.ok T) (some img) pdf_file s).auditCalls = 1)
    ∧ normalizeWith jsonParse "no fences here, not json".toList
        = .unparsed "no fences here, not json".toList := by
  refine ⟨?_, ?_, ?_, ?_, rfl⟩
  · intro parse t h
    simp [normalizeWith, h]
  · intro parse t h
    simp [specOfResponse, normalizeWith, h]
  · intro parse t h
    simp [displayVerdict, normalizeWith, h]
  · intro parse hashFn extractSvc img pdf_file s ib T himg hT h
    have hne : T.isEmpty = false := by
      cases T with
      | nil => exact absurd rfl hT
      | cons c t => rfl
    rw [submit_ok_image parse hashFn extractSvc (.ok T) img pdf_file s ib himg]
    constructor
    · show auditDisplay parse (.ok T) = .warningCard T
      simp [auditDisplay, hne, displayVerdict, normalizeWith, h]
    · rfl

/-- Claim C5 witness: the concrete un-fenced non-JSON text is preserved
unchanged under the unparsed flag. -/
theorem c5_witness :
    normalizeWith jsonParse "no fences here, not json".toList
      = .unparsed "no fences here, not json".toList :=
  c5_parse_failure_is_soft.1 jsonParse "no fences here, not json".toList rfl

/-- Claim C8, amended: with a present and truthy (non-empty) ExtractedSpec
context the audit system instruction is exactly the fixed rubric with the
context header and the serialized context appended (`json.dumps` for a
mapping or list, plain text otherwise, per `serializeCtx`); with no
context it is the rubric alone; but a present yet falsy (empty) context is
treated as absent, yielding the rubric alone. -/
theorem c8_system_instruction_concatenation :
    (∀ v : SpecVal, v.truthy = true →
      buildSystemInstruction (some v) = baseSystem ++ ctxHeader ++ serializeCtx v)
    ∧ buildSystemInstruction none = baseSystem
    ∧ (∀ v : SpecVal, v.truthy = false → buildSystemInstruction (some v) = baseSystem) := by
  refine ⟨?_, rfl, ?_⟩
  · intro v hv
    simp [buildSystemInstruction, truthyOpt, hv]
  · intro v hv
    simp [buildSystemInstruction, truthyOpt, hv]

/-- Claim C8 witness: a raw-text context is appended verbatim after the
rubric and header. -/
theorem c8_witness :
    buildSystemInstruction (some (.raw "colors: red".toList))
      = baseSystem ++ ctxHeader ++ serializeCtx (.raw "colors: red".toList) :=
  c8_system_instruction_concatenation.1 (.raw "colors: red".toList) rfl

/-- Claim C8 counterexample: the empty mapping is a present ExtractedSpec,
yet the instruction built for it is not the rubric plus its serialization
(the code's truthiness test drops the context). -/
theorem c8_counterexample :
    buildSystemInstruction (some (.parsed (.obj [])))
      ≠ specSystemInstruction (some (.parsed (.obj []))) := by
  intro h
  have hb : buildSystemInstruction (some (.parsed (.obj []))) = baseSystem := by
    simp [buildSystemInstruction, truthyOpt, SpecVal.truthy, Json.truthy]
  have hs : specSystemInstruction (some (.parsed (.obj [])))
      = baseSystem ++ ctxHeader ++ serializeCtx (.parsed (.obj [])) := rfl
  rw [hb, hs] at h
  have hlen := congrArg List.length h
  have hctx : ctxHeader.length = 44 := rfl
  have hser : (serializeCtx (.parsed (.obj []))).length = 2 := rfl
  simp only [List.length_append, hctx, hser] at hlen
  omega

/-- Claim C9: a falsy cached ExtractedSpec (for instance the empty
mapping) is treated as no context at all — the audit instruction is the
bare rubric — and a submit with a document attached re-invokes the
extractor even though the stored digest equals the document's digest. -/
theorem c9_falsy_spec_treated_as_absent :
    (∀ v : SpecVal, v.truthy = false → buildSystemInstruction (some v) = baseSystem)
    ∧ (∀ (parse : Str → Option Json) (hashFn : Str → Str)
        (extractSvc : Option Str → Outcome) (auditSvc : Outcome)
        (img : ImageFile) (pf : PdfFile) (s : SessionState) (ib b : Str) (v : SpecVal),
      img.readResult = .ok ib → pf.readResult = .ok b →
      s.pdf_extracted = some v → v.truthy = false →
      s.pdf_hash = some (hashFn b) →
      (submit parse hashFn extractSvc auditSvc (some img) (some pf) s).extractionCalls
        = 1) := by
  constructor
  · intro v hv
    simp [buildSystemInstruction, truthyOpt, hv]
  · intro parse hashFn extractSvc auditSvc img pf s ib b v himg hpf hpe hv hh
    rw [submit_ok_image parse hashFn extractSvc auditSvc img (some pf) s ib himg]
    show (runPdfStage parse hashFn extractSvc (some pf) s).2.2 = 1
    have hguard : (!truthyOpt s.pdf_extracted
        || (truthyHash (some (hashFn b)) && (s.pdf_hash != some (hashFn b)))) = true := by
      simp [truthyOpt, hpe, hv]
    cases hex : extractSvc (some b) with
    | ok T =>
      rw [runPdfStage_extract_ok parse hashFn extractSvc pf s b T hpf hguard hex]
    | err e =>
      rw [runPdfStage_extract_err parse hashFn extractSvc pf s b e hpf hguard hex]

/-- Claim C9 witness: with the empty mapping cached under a matching
digest, a submit still performs one extraction call. -/
theorem c9_witness :
    (submit jsonParse (fun b => b) (fun _ => .ok "\x7b\x7d".toList)
        (.ok "txt".toList) (some ⟨.ok "img".toList, none⟩) (some ⟨.ok "doc".toList⟩)
        ⟨some (.parsed (.obj [])), some "r".toList, some "doc".toList, false⟩).extractionCalls
      = 1 :=
  c9_falsy_spec_treated_as_absent.2 jsonParse (fun b => b)
    (fun _ => .ok "\x7b\x7d".toList) (.ok "txt".toList)
    ⟨.ok "img".toList, none⟩ ⟨.ok "doc".toList⟩
    ⟨some (.parsed (.obj [])), some "r".toList, some "doc".toList, false⟩
    "img".toList "doc".toList (.parsed (.obj []))
    rfl rfl rfl rfl rfl

/-- Claim C4: when a document is attached whose bytes are read and hashed
successfully and whose digest differs from the cached one, a submit issues
exactly one extraction call and — when that call returns a result — the
cached ExtractedSpec, raw text, and digest are all fully replaced by
values computed from the new result alone. -/
theorem c4_changed_digest_one_extraction :
    ∀ (parse : Str → Option Json) (hashFn : Str → Str)
      (extractSvc : Option Str → Outcome) (auditSvc : Outcome)
      (img : ImageFile) (pf : PdfFile) (s : SessionState) (ib b T : Str),
      img.readResult = .ok ib → pf.readResult = .ok b →
      (hashFn b).isEmpty = false →
      s.pdf_hash ≠ some (hashFn b) →
      extractSvc (some b) = .ok T →
      (submit parse hashFn extractSvc auditSvc (some img) (some pf) s).extractionCalls = 1
      ∧ (submit parse hashFn extractSvc auditSvc (some img) (some pf) s).state.pdf_extracted
          = some (specOfResponse parse T)
      ∧ (submit parse hashFn extractSvc auditSvc (some img) (some pf) s).state.pdf_extract_raw
          = some T
      ∧ (submit parse hashFn extractSvc auditSvc (some img) (some pf) s).state.pdf_hash
          = some (hashFn b) := by
  intro parse hashFn extractSvc auditSvc img pf s ib b T himg hpf hne hdiff hex
  have hguard : (!truthyOpt s.pdf_extracted
      || (truthyHash (some (hashFn b)) && (s.pdf_hash != some (hashFn b)))) = true := by
    have h1 : truthyHash (some (hashFn b)) = true := by simp [truthyHash, hne]
    have h2 : (s.pdf_hash != some (hashFn b)) = true := bne_iff_ne.mpr hdiff
    simp [h1, h2]
  rw [submit_ok_image parse hashFn extractSvc auditSvc img (some pf) s ib himg,
    runPdfStage_extract_ok parse hashFn extractSvc pf s b T hpf hguard hex]
  exact ⟨rfl, rfl, rfl, rfl⟩

/-- Claim C4 witness: a concrete changed-digest submit replaces the cache. -/
theorem c4_witness :
    (submit jsonParse (fun b => b) (fun _ => .ok "spec".toList) (.ok "t".toList)
        (some ⟨.ok "i".toList, none⟩) (some ⟨.ok "d2".toList⟩)
        ⟨some (.raw "old".toList), some "old".toList, some "d1".toList, false⟩).extractionCalls = 1
    ∧ (submit jsonParse (fun b => b) (fun _ => .ok "spec".toList) (.ok "t".toList)
        (some ⟨.ok "i".toList, none⟩) (some ⟨.ok "d2".toList⟩)
        ⟨some (.raw "old".toList), some "old".toList, some "d1".toList, false⟩).state.pdf_extracted
        = some (specOfResponse jsonParse "spec".toList)
    ∧ (submit jsonParse (fun b => b) (fun _ => .ok "spec".toList) (.ok "t".toList)
        (some ⟨.ok "i".toList, none⟩) (some ⟨.ok "d2".toList⟩)
        ⟨some (.raw "old".toList), some "old".toList, some "d1".toList, false⟩).state.pdf_extract_raw
        = some "spec".toList
    ∧ (submit jsonParse (fun b => b) (fun _ => .ok "spec".toList) (.ok "t".toList)
        (some ⟨.ok "i".toList, none⟩) (some ⟨.ok "d2".toList⟩)
        ⟨some (.raw "old".toList), some "old".toList, some "d1".toList, false⟩).state.pdf_hash
        = some "d2".toList :=
  c4_changed_digest_one_extraction jsonParse (fun b => b) (fun _ => .ok "spec".toList)
    (.ok "t".toList) ⟨.ok "i".toList, none⟩ ⟨.ok "d2".toList⟩
    ⟨some (.raw "old".toList), some "old".toList, some "d1".toList, false⟩
    "i".toList "d2".toList "spec".toList rfl rfl (by decide) (by decide) rfl

/-- Claim C2, amended: submitting twice with the same document in a fresh
session, where the first submit's extraction succeeds and normalizes to a
truthy (non-empty) ExtractedSpec, issues exactly one extraction call on
the first submit and none on the second; the second submit leaves the
state unchanged and passes the cached value unchanged to the audit call.
(If the cached value is falsy — e.g. an empty mapping — the extractor IS
re-invoked; see claim C9.) -/
theorem c2_unchanged_document_reuses_cache :
    ∀ (parse : Str → Option Json) (hashFn : Str → Str)
      (extractSvc : Option Str → Outcome) (auditSvc : Outcome)
      (img : ImageFile) (pf : PdfFile) (s : SessionState) (ib b T : Str),
      img.readResult = .ok ib → pf.readResult = .ok b →
      s.pdf_extracted = none →
      extractSvc (some b) = .ok T →
      (specOfResponse parse T).truthy = true →
      (submit parse hashFn extractSvc auditSvc (some img) (some pf) s).extractionCalls = 1
      ∧ (submit parse hashFn extractSvc auditSvc (some img) (some pf)
          (submit parse hashFn extractSvc auditSvc (some img) (some pf) s).state).extractionCalls
          = 0
      ∧ (submit parse hashFn extractSvc auditSvc (some img) (some pf)
          (submit parse hashFn extractSvc auditSvc (some img) (some pf) s).state).state
          = (submit parse hashFn extractSvc auditSvc (some img) (some pf) s).state
      ∧ (submit parse hashFn extractSvc auditSvc (some img) (some pf)
          (submit parse hashFn extractSvc auditSvc (some img) (some pf) s).state).auditContext
          = some (submit parse hashFn extractSvc auditSvc (some img) (some pf) s).state.pdf_extracted := by
  intro parse hashFn extractSvc auditSvc img pf s ib b T himg hpf hnone hex htr
  have hguard1 : (!truthyOpt s.pdf_extracted
      || (truthyHash (some (hashFn b)) && (s.pdf_hash != some (hashFn b)))) = true := by
    simp [truthyOpt, hnone]
  have hstep1 := submit_ok_image parse hashFn extractSvc auditSvc img (some pf) s ib himg
  have hpdf1 := runPdfStage_extract_ok parse hashFn extractSvc pf s b T hpf hguard1 hex
  rw [hstep1, hpdf1]
  have hguard2 : (!truthyOpt (some (specOfResponse parse T))
      || (truthyHash (some (hashFn b))
          && ((some (hashFn b) : Option Str) != some (hashFn b)))) = false := by
    simp [truthyOpt, htr]
  have hstep2 := submit_ok_image parse hashFn extractSvc auditSvc img (some pf)
    { pdf_extracted := some (specOfResponse parse T), pdf_extract_raw := some T,
      pdf_hash := some (hashFn b), show_pdf_extracted := true } ib himg
  have hpdf2 := runPdfStage_cached parse hashFn extractSvc pf
    { pdf_extracted := some (specOfResponse parse T), pdf_extract_raw := some T,
      pdf_hash := some (hashFn b), show_pdf_extracted := true } b hpf hguard2
  rw [hstep2, hpdf2]
  exact ⟨rfl, rfl, rfl, rfl⟩

/-- Claim C2 witness: a concrete pair of submits with the same document
bytes and a truthy extraction result performs one then zero extraction
calls. -/
theorem c2_witness :
    (submit jsonParse (fun b => b)
        (fun _ => .ok "\x7b\"BrandName\": \"X\"\x7d".toList) (.ok "t".toList)
        (some ⟨.ok "i".toList, none⟩) (some ⟨.ok "doc".toList⟩)
        ⟨none, none, none, false⟩).extractionCalls = 1
    ∧ (submit jsonParse (fun b => b)
        (fun _ => .ok "\x7b\"BrandName\": \"X\"\x7d".toList) (.ok "t".toList)
        (some ⟨.ok "i".toList, none⟩) (some ⟨.ok "doc".toList⟩)
        (submit jsonParse (fun b => b)
          (fun _ => .ok "\x7b\"BrandName\": \"X\"\x7d".toList) (.ok "t".toList)
          (some ⟨.ok "i".toList, none⟩) (some ⟨.ok "doc".toList⟩)
          ⟨none, none, none, false⟩).state).extractionCalls = 0
    ∧ (submit jsonParse (fun b => b)
        (fun _ => .ok "\x7b\"BrandName\": \"X\"\x7d".toList) (.ok "t".toList)
        (some ⟨.ok "i".toList, none⟩) (some ⟨.ok "doc".toList⟩)
        (submit jsonParse (fun b => b)
          (fun _ => .ok "\x7b\"BrandName\": \"X\"\x7d".toList) (.ok "t".toList)
          (some ⟨.ok "i".toList, none⟩) (some ⟨.ok "doc".toList⟩)
          ⟨none, none, none, false⟩).state).state
        = (submit jsonParse (fun b => b)
          (fun _ => .ok "\x7b\"BrandName\": \"X\"\x7d".toList) (.ok "t".toList)
          (some ⟨.ok "i".toList, none⟩) (some ⟨.ok "doc".toList⟩)
          ⟨none, none, none, false⟩).state
    ∧ (submit jsonParse (fun b => b)
        (fun _ => .ok "\x7b\"BrandName\": \"X\"\x7d".toList) (.ok "t".toList)
        (some ⟨.ok "i".toList, none⟩) (some ⟨.ok "doc".toList⟩)
        (submit jsonParse (fun b => b)
          (fun _ => .ok "\x7b\"BrandName\": \"X\"\x7d".toList) (.ok "t".toList)
          (some ⟨.ok "i".toList, none⟩) (some ⟨.ok "doc".toList⟩)
          ⟨none, none, none, false⟩).state).auditContext
        = some (submit jsonParse (fun b => b)
          (fun _ => .ok "\x7b\"BrandName\": \"X\"\x7d".toList) (.ok "t".toList)
          (some ⟨.ok "i".toList, none⟩) (some ⟨.ok "doc".toList⟩)
          ⟨none, none, none, false⟩).state.pdf_extracted :=
  c2_unchanged_document_reuses_cache jsonParse (fun b => b)
    (fun _ => .ok "\x7b\"BrandName\": \"X\"\x7d".toList) (.ok "t".toList)
    ⟨.ok "i".toList, none⟩ ⟨.ok "doc".toList⟩ ⟨none, none, none, false⟩
    "i".toList "doc".toList "\x7b\"BrandName\": \"X\"\x7d".toList
    rfl rfl rfl rfl rfl

/-- Claim C2 counterexample: when the first extraction of a session parses
to the empty mapping (a falsy value), re-submitting the identical document
bytes triggers a second extraction call, refuting "never invokes the
Document Extractor again". -/
theorem c2_counterexample :
    (submit jsonParse (fun b => b) (fun _ => .ok "\x7b\x7d".toList) (.ok "t".toList)
        (some ⟨.ok "i".toList, none⟩) (some ⟨.ok "doc".toList⟩)
        ⟨none, none, none, false⟩).extractionCalls = 1
    ∧ (submit jsonParse (fun b => b) (fun _ => .ok "\x7b\x7d".toList) (.ok "t".toList)
        (some ⟨.ok "i".toList, none⟩) (some ⟨.ok "doc".toList⟩)
        (submit jsonParse (fun b => b) (fun _ => .ok "\x7b\x7d".toList) (.ok "t".toList)
          (some ⟨.ok "i".toList, none⟩) (some ⟨.ok "doc".toList⟩)
          ⟨none, none, none, false⟩).state).extractionCalls = 1 :=
  ⟨rfl, rfl⟩

/-- Claim C1, amended: when a submit with an attached document runs the
extraction and the call fails, the cached ExtractedSpec and raw text are
explicitly cleared (never left stale), and the subsequent audit call is
made with no document context — but the cached DocumentDigest is NOT
cleared: it keeps its previous value. -/
theorem c1_extraction_failure_clears_spec_keeps_digest :
    ∀ (parse : Str → Option Json) (hashFn : Str → Str)
      (extractSvc : Option Str → Outcome) (auditSvc : Outcome)
      (img : ImageFile) (pf : PdfFile) (s : SessionState) (ib b e : Str),
      img.readResult = .ok ib → pf.readResult = .ok b →
      (!truthyOpt s.pdf_extracted
        || (truthyHash (some (hashFn b)) && (s.pdf_hash != some (hashFn b)))) = true →
      extractSvc (some b) = .err e →
      (submit parse hashFn extractSvc auditSvc (some img) (some pf) s).extractionCalls = 1
      ∧ (submit parse hashFn extractSvc auditSvc (some img) (some pf) s).state.pdf_extracted
          = none
      ∧ (submit parse hashFn extractSvc auditSvc (some img) (some pf) s).state.pdf_extract_raw
          = none
      ∧ (submit parse hashFn extractSvc auditSvc (some img) (some pf) s).state.pdf_hash
          = s.pdf_hash
      ∧ (submit parse hashFn extractSvc auditSvc (some img) (some pf) s).auditCalls = 1
      ∧ (submit parse hashFn extractSvc auditSvc (some img) (some pf) s).auditContext
          = some none := by
  intro parse hashFn extractSvc auditSvc img pf s ib b e himg hpf hguard hex
  rw [submit_ok_image parse hashFn extractSvc auditSvc img (some pf) s ib himg,
    runPdfStage_extract_err parse hashFn extractSvc pf s b e hpf hguard hex]
  exact ⟨rfl, rfl, rfl, rfl, rfl, rfl⟩

/-- Claim C1 witness: a concrete failing extraction clears the spec and
raw text, keeps the previous digest value, and the audit runs with no
context. -/
theorem c1_witness :
    (submit jsonParse (fun b => b) (fun _ => .err "boom".toList) (.ok "t".toList)
        (some ⟨.ok "i".toList, none⟩) (some ⟨.ok "d2".toList⟩)
        ⟨some (.raw "S".toList), some "S".toList, some "d1".toList, false⟩).extractionCalls = 1
    ∧ (submit jsonParse (fun b => b) (fun _ => .err "boom".toList) (.ok "t".toList)
        (some ⟨.ok "i".toList, none⟩) (some ⟨.ok "d2".toList⟩)
        ⟨some (.raw "S".toList), some "S".toList, some "d1".toList, false⟩).state.pdf_extracted
        = none
    ∧ (submit jsonParse (fun b => b) (fun _ => .err "boom".toList) (.ok "t".toList)
        (some ⟨.ok "i".toList, none⟩) (some ⟨.ok "d2".toList⟩)
        ⟨some (.raw "S".toList), some "S".toList, some "d1".toList, false⟩).state.pdf_extract_raw
        = none
    ∧ (submit jsonParse (fun b => b) (fun _ => .err "boom".toList) (.ok "t".toList)
        (some ⟨.ok "i".toList, none⟩) (some ⟨.ok "d2".toList⟩)
        ⟨some (.raw "S".toList), some "S".toList, some "d1".toList, false⟩).state.pdf_hash
        = some "d1".toList
    ∧ (submit jsonParse (fun b => b) (fun _ => .err "boom".toList) (.ok "t".toList)
        (some ⟨.ok "i".toList, none⟩) (some ⟨.ok "d2".toList⟩)
        ⟨some (.raw "S".toList), some "S".toList, some "d1".toList, false⟩).auditCalls = 1
    ∧ (submit jsonParse (fun b => b) (fun _ => .err "boom".toList) (.ok "t".toList)
        (some ⟨.ok "i".toList, none⟩) (some ⟨.ok "d2".toList⟩)
        ⟨some (.raw "S".toList), some "S".toList, some "d1".toList, false⟩).auditContext
        = some none :=
  c1_extraction_failure_clears_spec_keeps_digest jsonParse (fun b => b)
    (fun _ => .err "boom".toList) (.ok "t".toList) ⟨.ok "i".toList, none⟩
    ⟨.ok "d2".toList⟩ ⟨some (.raw "S".toList), some "S".toList, some "d1".toList, false⟩
    "i".toList "d2".toList "boom".toList rfl rfl (by decide) rfl

/-- Claim C1 counterexample: after a failing extraction the cached digest
is not absent — it still holds the previously stored digest, while the
ExtractedSpec was cleared. -/
theorem c1_counterexample :
    (submit jsonParse (fun b => b) (fun _ => .err "boom".toList) (.ok "t".toList)
        (some ⟨.ok "i".toList, none⟩) (some ⟨.ok "d2".toList⟩)
        ⟨some (.parsed (.obj [("BrandName".toList, .str "X".toList)])),
         some "r".toList, some "d1".toList, false⟩).state.pdf_extracted = none
    ∧ (submit jsonParse (fun b => b) (fun _ => .err "boom".toList) (.ok "t".toList)
        (some ⟨.ok "i".toList, none⟩) (some ⟨.ok "d2".toList⟩)
        ⟨some (.parsed (.obj [("BrandName".toList, .str "X".toList)])),
         some "r".toList, some "d1".toList, false⟩).state.pdf_hash
        = some "d1".toList :=
  ⟨rfl, rfl⟩
